import Mathlib

/-!
Verification of the TabHibernate extension core (service_worker.js / history.js)
against its natural-language specification.

The JavaScript source is shallowly embedded: pure helpers become Lean
functions, `chrome.storage.local` becomes an explicit association list from
string keys to stored values, and the effectful body of `suspendPlaceholder`
becomes an explicit list of effects (durable writes / removals, tab
navigation, daily-counter increment) emitted in program order, so that the
ordering of the durable write relative to the navigation is visible in the
model.  Host string primitives (`String.prototype.startsWith`, `trim`,
`toLowerCase`, the WHATWG `URL` parser, `URLSearchParams`,
`encodeURIComponent`, `parseInt`) are implemented over `List Char` so that
every definition evaluates by kernel reduction.
-/

namespace TabHibernate

/-! ## JavaScript string primitives, modelled over `List Char` -/

/-- Model of `String.prototype.startsWith`. -/
def strStartsWith (s p : String) : Bool :=
  p.data.isPrefixOf s.data

/-- Model of `String.prototype.endsWith`. -/
def strEndsWith (s p : String) : Bool :=
  p.data.reverse.isPrefixOf s.data.reverse

/-- Model of `String.prototype.toLowerCase` (ASCII letters, which is all the
source compares against). -/
def strToLower (s : String) : String :=
  String.mk (s.data.map Char.toLower)

/-- ASCII whitespace as trimmed by `String.prototype.trim`. -/
def isSpaceChar (c : Char) : Bool :=
  c = ' ' || c = '\t' || c = '\n' || c = '\r' || c = '\x0b' || c = '\x0c'

/-- Model of `String.prototype.trim`. -/
def jsTrim (s : String) : String :=
  String.mk (((s.data.dropWhile isSpaceChar).reverse.dropWhile isSpaceChar).reverse)

/-- Split a character list at the first occurrence of the separator sequence
`sep`, returning the part before it and the part after it (the separator
itself removed), or `none` when `sep` does not occur. -/
def splitFirstSeq (sep : List Char) : List Char → Option (List Char × List Char)
  | [] => if sep.isEmpty then some ([], []) else none
  | x :: xs =>
    if sep.isPrefixOf (x :: xs) then some ([], (x :: xs).drop sep.length)
    else
      match splitFirstSeq sep xs with
      | some (before, after) => some (x :: before, after)
      | none => none

/-- Split a character list at the first occurrence of the character `c`; when
`c` does not occur the whole list is the "before" part and the "after" part is
empty (which is how the source consumes the host URL components). -/
def splitAtFirst (c : Char) (l : List Char) : List Char × List Char :=
  match splitFirstSeq [c] l with
  | some (before, after) => (before, after)
  | none => (l, [])

/-- Value of a hexadecimal digit character. -/
def hexVal (c : Char) : Option Nat :=
  if '0' ≤ c ∧ c ≤ '9' then some (c.toNat - '0'.toNat)
  else if 'a' ≤ c ∧ c ≤ 'f' then some (c.toNat - 'a'.toNat + 10)
  else if 'A' ≤ c ∧ c ≤ 'F' then some (c.toNat - 'A'.toNat + 10)
  else none

/-- Decoding of an `application/x-www-form-urlencoded` component as performed
by `URLSearchParams`: a plus sign denotes a space and a percent sign followed
by two hex digits denotes a byte; malformed escapes are kept verbatim. -/
def formDecodeChars : List Char → List Char
  | [] => []
  | '+' :: rest => ' ' :: formDecodeChars rest
  | '%' :: a :: b :: rest =>
    match hexVal a, hexVal b with
    | some x, some y => Char.ofNat (16 * x + y) :: formDecodeChars rest
    | _, _ => '%' :: formDecodeChars (a :: b :: rest)
  | c :: rest => c :: formDecodeChars rest

/-- Model of `URLSearchParams` decoding of one component. -/
def formDecode (s : String) : String :=
  String.mk (formDecodeChars s.data)

/-- Uppercase hexadecimal digit for a value below 16. -/
def hexDigitChar (n : Nat) : Char :=
  if n < 10 then Char.ofNat ('0'.toNat + n) else Char.ofNat ('A'.toNat + (n - 10))

/-- UTF-8 byte sequence of one character (used by the host percent-encoders). -/
def utf8Bytes (c : Char) : List Nat :=
  let n := c.toNat
  if n < 0x80 then [n]
  else if n < 0x800 then [0xC0 + n / 0x40, 0x80 + n % 0x40]
  else if n < 0x10000 then
    [0xE0 + n / 0x1000, 0x80 + (n / 0x40) % 0x40, 0x80 + n % 0x40]
  else
    [0xF0 + n / 0x40000, 0x80 + (n / 0x1000) % 0x40, 0x80 + (n / 0x40) % 0x40,
     0x80 + n % 0x40]

/-- Percent-escape of one byte. -/
def percentByte (b : Nat) : List Char :=
  ['%', hexDigitChar (b / 16), hexDigitChar (b % 16)]

/-- Characters left verbatim by `encodeURIComponent`. -/
def isUriComponentSafe (c : Char) : Bool :=
  c.isAlpha || c.isDigit || c = '-' || c = '_' || c = '.' || c = '!' || c = '~'
    || c = '*' || c = '\x27' || c = '(' || c = ')'

/-- Model of `encodeURIComponent`. -/
def encodeURIComponent (s : String) : String :=
  String.mk (s.data.foldr
    (fun c acc => (if isUriComponentSafe c then [c] else (utf8Bytes c).flatMap percentByte) ++ acc)
    [])

/-- Characters left verbatim by the `URLSearchParams` serializer. -/
def isFormSafe (c : Char) : Bool :=
  c.isAlpha || c.isDigit || c = '*' || c = '-' || c = '.' || c = '_'

/-- Model of the `URLSearchParams` serializer for one component: a space
becomes a plus sign, other unsafe characters are percent-escaped. -/
def formEncode (s : String) : String :=
  String.mk (s.data.foldr
    (fun c acc =>
      (if c = ' ' then ['+']
       else if isFormSafe c then [c]
       else (utf8Bytes c).flatMap percentByte) ++ acc)
    [])

/-- Split a character list on every occurrence of `c` (model of
`String.prototype.split` with a one-character separator). -/
def splitOnChar (c : Char) : List Char → List (List Char)
  | [] => [[]]
  | x :: xs =>
    let r := splitOnChar c xs
    if x = c then [] :: r
    else
      match r with
      | [] => [[x]]
      | h :: t => (x :: h) :: t

/-! ## Model of the WHATWG `URL` parser (the subset the source relies on) -/

/-- Parsed components of a hierarchical `scheme://…` URL, as exposed by the
host `URL` object: `pathname` (always slash-prefixed) and the decoded
`searchParams` key/value pairs. -/
structure UrlParts where
  scheme : String
  host : String
  pathname : String
  searchParams : List (String × String)
deriving DecidableEq

/-- Model of `URLSearchParams` parsing of a raw query (without the question mark):
split on ampersands, split each nonempty piece at the first equals sign,
form-decode both sides. -/
def parseQuery (q : List Char) : List (String × String) :=
  (splitOnChar '&' q).filterMap fun kv =>
    if kv.isEmpty then none
    else
      let p := splitAtFirst '=' kv
      some (formDecode (String.mk p.1), formDecode (String.mk p.2))

/-- A valid URL scheme: a letter followed by letters, digits, plus, minus or
dot. -/
def isValidScheme (cs : List Char) : Bool :=
  match cs with
  | [] => false
  | c :: rest =>
    c.isAlpha && rest.all (fun d => d.isAlpha || d.isDigit || d = '+' || d = '-' || d = '.')

/-- Model of `new URL(url)` for hierarchical `scheme://…` URLs, returning
`none` where the host constructor would throw (and also for the
non-hierarchical URLs the source never builds).  The fragment is discarded,
the query starts at the first question mark, the path at the first slash
after the authority. -/
def parseUrl (url : String) : Option UrlParts :=
  match splitFirstSeq [':', '/', '/'] url.data with
  | none => none
  | some (schemeCs, rest) =>
    if isValidScheme schemeCs then
      let beforeHash := (splitAtFirst '#' rest).1
      let hp := splitAtFirst '?' beforeHash
      let hostSplit := splitAtFirst '/' hp.1
      some { scheme := String.mk (schemeCs.map Char.toLower),
             host := String.mk hostSplit.1,
             pathname := String.mk ('/' :: hostSplit.2),
             searchParams := parseQuery hp.2 }
    else none

/-- Model of `searchParams.get(k)`: value of the first pair with key `k`. -/
def getParam (ps : List (String × String)) (k : String) : Option String :=
  (ps.find? (fun p => p.1 == k)).map (fun p => p.2)

/-- Model of `searchParams.has(k)`. -/
def hasParam (ps : List (String × String)) (k : String) : Bool :=
  ps.any (fun p => p.1 == k)

/-- Model of `parseInt(s, 10)`: skip leading whitespace, optional sign,
longest digit run; `none` models `NaN`. -/
def jsParseInt (s : String) : Option Int :=
  let cs := s.data.dropWhile isSpaceChar
  let signAndRest : Int × List Char :=
    match cs with
    | '-' :: t => (-1, t)
    | '+' :: t => (1, t)
    | t => (1, t)
  let digits := signAndRest.2.takeWhile Char.isDigit
  if digits.isEmpty then none
  else
    some (signAndRest.1 *
      (digits.foldl (fun acc c => acc * 10 + (c.toNat - '0'.toNat)) 0 : Nat))

/-- String interpolation of a `parseInt` result, as in the template literal
building the storage key: a number prints in decimal, `NaN` prints as
`"NaN"`. -/
def jsIntRepr (n : Option Int) : String :=
  match n with
  | some i => toString i
  | none => "NaN"

/-! ## Tab model and the predicates of service_worker.js -/

/-- Snapshot of a Chrome tab, with the fields the source reads.  A missing
`tab.id` (falsy in the source) is modelled as `0`; Chrome tab ids are
positive. -/
structure Tab where
  id : Nat
  url : String
  title : String
  active : Bool := false
  pinned : Bool := false
  audible : Bool := false
  incognito : Bool := false
deriving DecidableEq

/-- Source function `isSuspendedPlaceholderUrl` (service_worker.js:49-52): check against the
full stub URL of the current installation, `extBase` standing for
`chrome.runtime.getURL('')` (`chrome-extension://<current-id>/`). -/
def isSuspendedPlaceholderUrl (extBase url : String) : Bool :=
  let base := extBase ++ "suspended.html"
  !(url == "") && strStartsWith url (String.mk (splitAtFirst '?' base.data).1)

/-- Source function `isPlaceholderTabUrl` (service_worker.js:56-64): recognizes the stub page
by path suffix and `tabId` query parameter, independently of the installation
identity; a URL the host parser rejects yields `false` (the `catch` branch). -/
def isPlaceholderTabUrl (url : String) : Bool :=
  if url == "" then false
  else
    match parseUrl url with
    | none => false
    | some u => strEndsWith u.pathname "suspended.html" && hasParam u.searchParams "tabId"

/-- Source function `isTabEligibleForSuspend` (service_worker.js:72-82). -/
def isTabEligibleForSuspend (extBase : String) (tab : Tab) (allowActive : Bool) : Bool :=
  if tab.id == 0 then false
  else if tab.active && !allowActive then false
  else if tab.pinned then false
  else if tab.audible then false
  else if tab.incognito then false
  else
    let u := strToLower tab.url
    if strStartsWith u "chrome://" || strStartsWith u "chrome-extension://" then false
    else if isSuspendedPlaceholderUrl extBase tab.url || isPlaceholderTabUrl tab.url then false
    else true

/-- Source function `hasRestorableUrl` (service_worker.js:137-140). -/
def hasRestorableUrl (url : String) : Bool :=
  let u := jsTrim url
  decide (0 < u.data.length) && !(u == "about:blank") && !(strStartsWith u "about:")

/-- In-memory activity map `lastActivityByTab`, tab id to timestamp (ms). -/
abbrev ActivityMap : Type := List (Nat × Int)

/-- Model of `lastActivityByTab.get(tabId)`. -/
def lookupActivity (m : ActivityMap) (tabId : Nat) : Option Int :=
  (m.find? (fun p => p.1 == tabId)).map (fun p => p.2)

/-- Source function `isTabInactive` (service_worker.js:113-117); `now` stands for
`Date.now()` at the moment of the call. -/
def isTabInactive (m : ActivityMap) (now : Int) (tabId : Nat) (timeoutMinutes : Int) : Bool :=
  match lookupActivity m tabId with
  | none => false
  | some last => decide (now - last ≥ timeoutMinutes * 60 * 1000)

/-! ## Durable storage model (`chrome.storage.local`) -/

/-- A `SuspendedTabRecord`: the value written under `suspended_<tabId>`
(service_worker.js:154-155). -/
structure SuspendedRecord where
  url : String
  title : String
  tabId : Nat
deriving DecidableEq

/-- One entry of a `backup_<date>` bucket (service_worker.js:243). -/
structure BackupEntry where
  url : String
  title : String
  ts : Int
deriving DecidableEq

/-- One entry of the `closedAndSaved` list (service_worker.js:335). -/
structure ClosedEntry where
  url : String
  title : String
  savedAt : Int
deriving DecidableEq

/-- Values stored in `chrome.storage.local` (the shapes the claims touch). -/
inductive StorageValue where
  | suspendedRec (r : SuspendedRecord)
  | backupList (l : List BackupEntry)
  | closedList (l : List ClosedEntry)
  | num (n : Int)
  | str (s : String)
deriving DecidableEq

/-- Model of `chrome.storage.local` as an association list from keys to values. -/
abbrev Store : Type := List (String × StorageValue)

/-- Read one key (`chrome.storage.local.get`): value of the first entry with
that key. -/
def storeGet : Store → String → Option StorageValue
  | [], _ => none
  | p :: rest, k => if p.1 = k then some p.2 else storeGet rest k

/-- Write one key (`chrome.storage.local.set`): replace the entry in place
when the key exists, append otherwise — the key/value semantics of the
storage area. -/
def storeSet : Store → String → StorageValue → Store
  | [], k, v => [(k, v)]
  | p :: rest, k, v => if p.1 = k then (k, v) :: rest else p :: storeSet rest k v

/-- Delete one key (`chrome.storage.local.remove`). -/
def storeRemove : Store → String → Store
  | [], _ => []
  | p :: rest, k => if p.1 = k then storeRemove rest k else p :: storeRemove rest k

/-! ## Effect trace of the suspend engine -/

/-- One observable effect of `suspendPlaceholder`, in program order: durable
writes and removals, the tab navigation (`chrome.tabs.update`), and the
daily-counter increment.  Navigation carries no durable change. -/
inductive Effect where
  | write (key : String) (v : StorageValue)
  | remove (key : String)
  | navigate (tabId : Nat) (url : String)
  | incrToday
deriving DecidableEq

/-- Source function `incrementSuspendedToday` (service_worker.js:96-101); `today` stands for
`new Date().toISOString().slice(0, 10)`. -/
def incrementSuspendedToday (today : String) (σ : Store) : Store :=
  let stored : Int :=
    match storeGet σ "suspendedToday" with
    | some (.num n) => n
    | _ => 0
  let storedDate : Option String :=
    match storeGet σ "suspendedTodayDate" with
    | some (.str s) => some s
    | _ => none
  let count : Int := if storedDate == some today then stored + 1 else 1
  storeSet (storeSet σ "suspendedToday" (.num count)) "suspendedTodayDate" (.str today)

/-- Apply one effect to the durable store. -/
def applyEffect (today : String) (σ : Store) : Effect → Store
  | .write k v => storeSet σ k v
  | .remove k => storeRemove σ k
  | .navigate _ _ => σ
  | .incrToday => incrementSuspendedToday today σ

/-- Apply a trace of effects in order. -/
def applyEffects (today : String) (σ : Store) (l : List Effect) : Store :=
  l.foldl (applyEffect today) σ

/-! ## Placeholder suspension (service_worker.js:144-171) -/

def PLACEHOLDER_URL_PARAM_MAX : Nat := 1800

/-- The storage key of a tab's `SuspendedTabRecord`. -/
def restoreKey (tabId : Nat) : String :=
  "suspended_" ++ toString tabId

/-- The stub-page URL built by `suspendPlaceholder` (service_worker.js:157-161):
`tabId` always, plus the fallback parameter `u` when the URL is nonempty and
its `encodeURIComponent` form is short enough. -/
def suspendedStubUrl (extBase : String) (tabId : Nat) (url : String) : String :=
  let qs := "tabId=" ++ formEncode (toString tabId) ++
    (if !(url == "") && decide ((encodeURIComponent url).data.length ≤ PLACEHOLDER_URL_PARAM_MAX)
     then "&u=" ++ formEncode url
     else "")
  extBase ++ "suspended.html?" ++ qs

/-- Source function `suspendPlaceholder` (service_worker.js:146-171) as (result, effect trace).
`tabExists` models the `chrome.tabs.get` probe, `navOk` whether
`chrome.tabs.update` succeeds.  `url || ''` and `title || ''` coerce only
JavaScript nullish arguments, which the `String` type already excludes. -/
def suspendPlaceholder (tabExists navOk : Bool) (extBase : String) (tabId : Nat)
    (url title : String) : Bool × List Effect :=
  if !tabExists then (false, [])
  else
    let key := restoreKey tabId
    let writeRec := Effect.write key (.suspendedRec ⟨url, title, tabId⟩)
    let nav := Effect.navigate tabId (suspendedStubUrl extBase tabId url)
    if navOk then (true, [writeRec, nav, .incrToday])
    else (false, [writeRec, nav, .remove key])

/-! ## Restore flow (service_worker.js:350-378, 527-537) -/

/-- The stored-URL lookup of `runRestoreAllSuspended` (service_worker.js:361-363):
`item && item.url ? item.url : null`. -/
def restoreLookup (σ : Store) (tabId : Nat) : Option String :=
  match storeGet σ (restoreKey tabId) with
  | some (.suspendedRec r) => if r.url == "" then none else some r.url
  | _ => none

/-- The `getRestoreData` message handler (service_worker.js:527-537):
`data[key] || null`. -/
def getRestoreData (σ : Store) (tabId : Nat) : Option SuspendedRecord :=
  match storeGet σ (restoreKey tabId) with
  | some (.suspendedRec r) => some r
  | _ => none

/-- Result of processing one tab in the `runRestoreAllSuspended` loop. -/
structure RestoreStep where
  store : Store
  tab : Tab
  restored : Nat
deriving DecidableEq

/-- The body of the `runRestoreAllSuspended` loop for one tab
(service_worker.js:353-376).  The storage key is built from `parseInt` of the
`tabId` parameter (printing `NaN` when it does not parse, as the template
literal does); the fallback `u` parameter is accepted only when it starts with
`http://` or `https://`. -/
def restoreTabStep (σ : Store) (tab : Tab) : RestoreStep :=
  if tab.url == "" || tab.id == 0 || !(isPlaceholderTabUrl tab.url) then ⟨σ, tab, 0⟩
  else
    match parseUrl tab.url with
    | none => ⟨σ, tab, 0⟩
    | some u =>
      match getParam u.searchParams "tabId" with
      | none => ⟨σ, tab, 0⟩
      | some tp =>
        if tp == "" then ⟨σ, tab, 0⟩
        else
          let key := "suspended_" ++ jsIntRepr (jsParseInt tp)
          let stored : Option String :=
            match storeGet σ key with
            | some (.suspendedRec r) => if r.url == "" then none else some r.url
            | _ => none
          let restoreUrl : Option String :=
            match stored with
            | some s => some s
            | none =>
              match getParam u.searchParams "u" with
              | some f =>
                if !(f == "") && (strStartsWith f "http://" || strStartsWith f "https://")
                then some f else none
              | none => none
          match restoreUrl with
          | some r => ⟨storeRemove σ key, { tab with url := r }, 1⟩
          | none => ⟨σ, tab, 0⟩

/-- Source function `runRestoreAllSuspended` over a tab list: fold of the per-tab step,
accumulating the `restored` count. -/
def runRestoreAllSuspended (σ : Store) (tabs : List Tab) : Store × List Tab × Nat :=
  tabs.foldl
    (fun acc tab =>
      let r := restoreTabStep acc.1 tab
      (r.store, acc.2.1 ++ [r.tab], acc.2.2 + r.restored))
    (σ, [], 0)

/-! ## Backup manager (service_worker.js:215-249 and 437-447) -/

/-- A tab snapshot as collected for backup (`getEligibleTabsForBackup`). -/
structure TabInfo where
  id : Nat
  url : String
  title : String
deriving DecidableEq

/-- The backup entry pushed for one snapshot: `{url, title: t.title || t.url,
ts: now}` (service_worker.js:243). -/
def backupEntryOf (now : Int) (t : TabInfo) : BackupEntry :=
  ⟨t.url, if t.title == "" then t.url else t.title, now⟩

/-- The `seen`-set filter of `runBackup` (service_worker.js:217-222):
deduplicate the input by URL, first occurrence winning. -/
def dedupeByUrlAux (seen : List String) : List TabInfo → List TabInfo
  | [] => []
  | t :: ts =>
    if t.url ∈ seen then dedupeByUrlAux seen ts
    else t :: dedupeByUrlAux (t.url :: seen) ts

def dedupeByUrl (tabs : List TabInfo) : List TabInfo :=
  dedupeByUrlAux [] tabs

/-- The bucket-append loop of `runBackup` (service_worker.js:240-246).  The
source keeps an `existingUrls` set that is initialized to the URLs of the
bucket and grows with every push, so it always equals the URL set of the
current list; membership is therefore tested against the current bucket. -/
def appendMissing (now : Int) (bucket : List BackupEntry) : List TabInfo → List BackupEntry
  | [] => bucket
  | t :: ts =>
    if t.url ∈ bucket.map (fun e => e.url) then appendMissing now bucket ts
    else appendMissing now (bucket ++ [backupEntryOf now t]) ts

/-- The storage pass of `runBackup` (service_worker.js:215-248): deduplicate
the input, stop when empty, otherwise append the entries whose URL is absent
from the day's bucket.  The same list logic runs in the `onAlarmCheck` backup
pass (service_worker.js:437-447) and in `runSuspendAllNow`
(service_worker.js:293-323). -/
def runBackupStorage (now : Int) (bucket : List BackupEntry) (tabs : List TabInfo) :
    List BackupEntry :=
  let unique := dedupeByUrl tabs
  if unique.isEmpty then bucket
  else appendMissing now bucket unique

/-! ## Closed-and-saved history (service_worker.js:328-346, history.js:120-158) -/

def CLOSED_SAVED_MAX : Nat := 2000

/-- The list written by `runCloseAndSaveAll` (service_worker.js:338-341):
nothing is written when no tab was collected; otherwise the collected entries
are reversed onto the head of the stored list and the result truncated to
`CLOSED_SAVED_MAX`. -/
def runCloseAndSaveAllStorage (toSave old : List ClosedEntry) : List ClosedEntry :=
  if toSave.isEmpty then old
  else (toSave.reverse ++ old).take CLOSED_SAVED_MAX

/-- The `closedAndSaved` merge of `importData` (history.js:135): imported
entries ahead of the existing ones, truncated to `CLOSED_SAVED_MAX`. -/
def importClosedAndSaved (imported existing : List ClosedEntry) : List ClosedEntry :=
  (imported ++ existing).take CLOSED_SAVED_MAX

/-! ## Message router constants -/

/-- Result shape of the `getConstants` request. -/
structure ConstantsResult where
  closedSavedMax : Nat
deriving DecidableEq

/-- Modelled from the spec: the `getConstants` branch of the message router.
The history page (src/unnamed/part_000:210-222) sends `{type:'getConstants'}`
and reads `closedSavedMax` from the response, and its header comment names
the service worker as the single source of this limit, but the router branch
itself belongs to a repository revision whose service worker is not under
src/.  Spec: "get-constants | reports configuration limits (e.g. history
cap) | {closedSavedMax}"; the cap is `CLOSED_SAVED_MAX`
(service_worker.js:328). -/
def getConstantsHandler : ConstantsResult :=
  ⟨CLOSED_SAVED_MAX⟩

/-! ## Store lemmas -/

theorem storeGet_set_self (σ : Store) (k : String) (v : StorageValue) :
    storeGet (storeSet σ k v) k = some v := by
  induction σ with
  | nil => simp [storeSet, storeGet]
  | cons p rest ih =>
    by_cases hk : p.1 = k
    · simp [storeSet, storeGet, hk]
    · simp [storeSet, storeGet, hk, ih]

theorem storeGet_set_ne (σ : Store) (k k2 : String) (v : StorageValue) (h : k ≠ k2) :
    storeGet (storeSet σ k v) k2 = storeGet σ k2 := by
  induction σ with
  | nil => simp [storeSet, storeGet, h]
  | cons p rest ih =>
    by_cases hk : p.1 = k
    · simp [storeSet, storeGet, hk, h, ih]
    · by_cases hk2 : p.1 = k2
      · simp [storeSet, storeGet, hk, hk2, Ne.symm h]
      · simp [storeSet, storeGet, hk, hk2, ih]

theorem storeGet_remove_self (σ : Store) (k : String) :
    storeGet (storeRemove σ k) k = none := by
  induction σ with
  | nil => simp [storeRemove, storeGet]
  | cons p rest ih =>
    by_cases hk : p.1 = k
    · simp [storeRemove, hk, ih]
    · simp [storeRemove, storeGet, hk, ih]

theorem storeGet_remove_ne (σ : Store) (k k2 : String) (h : k ≠ k2) :
    storeGet (storeRemove σ k) k2 = storeGet σ k2 := by
  induction σ with
  | nil => simp [storeRemove, storeGet]
  | cons p rest ih =>
    by_cases hk : p.1 = k
    · have hk2 : p.1 ≠ k2 := by rw [hk]; exact h
      simp [storeRemove, storeGet, hk, hk2, h, ih]
    · by_cases hk2 : p.1 = k2
      · simp [storeRemove, storeGet, hk, hk2, Ne.symm h]
      · simp [storeRemove, storeGet, hk, hk2, ih]

theorem storeRemove_set_absent (σ : Store) (k : String) (v : StorageValue)
    (h : storeGet σ k = none) : storeRemove (storeSet σ k v) k = σ := by
  induction σ with
  | nil => simp [storeSet, storeRemove]
  | cons p rest ih =>
    by_cases hk : p.1 = k
    · rw [storeGet, if_pos hk] at h
      exact absurd h (by simp)
    · rw [storeGet, if_neg hk] at h
      simp [storeSet, storeRemove, hk, ih h]

/-- The record key never collides with the daily-counter key. -/
theorem restoreKey_ne_today (tabId : Nat) : restoreKey tabId ≠ "suspendedToday" := by
  intro h
  have h2 : (restoreKey tabId).data = "suspendedToday".data := by rw [h]
  rw [restoreKey, String.data_append] at h2
  rw [show "suspended_".data = ['s', 'u', 's', 'p', 'e', 'n', 'd', 'e', 'd', '_'] from rfl,
    show "suspendedToday".data =
      ['s', 'u', 's', 'p', 'e', 'n', 'd', 'e', 'd', 'T', 'o', 'd', 'a', 'y'] from rfl] at h2
  simp at h2

/-- The record key never collides with the daily-counter date key. -/
theorem restoreKey_ne_todayDate (tabId : Nat) : restoreKey tabId ≠ "suspendedTodayDate" := by
  intro h
  have h2 : (restoreKey tabId).data = "suspendedTodayDate".data := by rw [h]
  rw [restoreKey, String.data_append] at h2
  rw [show "suspended_".data = ['s', 'u', 's', 'p', 'e', 'n', 'd', 'e', 'd', '_'] from rfl,
    show "suspendedTodayDate".data =
      ['s', 'u', 's', 'p', 'e', 'n', 'd', 'e', 'd', 'T', 'o', 'd', 'a', 'y', 'D', 'a', 't',
       'e'] from rfl] at h2
  simp at h2

/-! ## Claim C5 -/

/-- C5: for every tab that has an ActivityRecord with timestamp `T` and every
configured timeout of `M` minutes, `isTabInactive` returns `true` if and only
if `now - T ≥ M * 60000`. -/
theorem c5_isTabInactive_iff (m : ActivityMap) (now T : Int) (tabId : Nat) (M : Int)
    (h : lookupActivity m tabId = some T) :
    isTabInactive m now tabId M = true ↔ now - T ≥ M * 60000 := by
  unfold isTabInactive
  rw [h, show M * 60 * 1000 = M * 60000 by ring]
  exact decide_eq_true_iff

/-- Witness for C5 at a concrete activity map. -/
theorem c5_isTabInactive_iff_witness :
    isTabInactive [(7, 0)] 300000 7 5 = true ↔ (300000 : Int) - 0 ≥ 5 * 60000 :=
  c5_isTabInactive_iff [(7, 0)] 300000 0 7 5 (by decide)

/-! ## Claim C9 -/

/-- C9 (spec-modelled handler): the `getConstants` request is answered with a
result object carrying `closedSavedMax`, the configured history cap, which is
2000. -/
theorem c9_getConstants_reports_cap :
    getConstantsHandler = { closedSavedMax := CLOSED_SAVED_MAX } ∧
      getConstantsHandler.closedSavedMax = 2000 :=
  ⟨rfl, rfl⟩

/-! ## Claim C7 -/

/-- C7: after the two operations that write the `closedAndSaved` list
(`runCloseAndSaveAll` and `importData`), the length is at most
`CLOSED_SAVED_MAX` (2000); new entries sit at the head and the written list
is the head of the full (new-first) concatenation, whose dropped part — the
tail, i.e. the oldest entries — is exactly what eviction removes. -/
theorem c7_closedSaved_bounded (toSave old imported existing : List ClosedEntry)
    (h : toSave ≠ []) :
    (runCloseAndSaveAllStorage toSave old).length ≤ CLOSED_SAVED_MAX ∧
    runCloseAndSaveAllStorage toSave old ++ (toSave.reverse ++ old).drop CLOSED_SAVED_MAX
      = toSave.reverse ++ old ∧
    (importClosedAndSaved imported existing).length ≤ CLOSED_SAVED_MAX ∧
    importClosedAndSaved imported existing ++ (imported ++ existing).drop CLOSED_SAVED_MAX
      = imported ++ existing := by
  have hne : toSave.isEmpty = false := by
    cases toSave with
    | nil => exact absurd rfl h
    | cons a t => rfl
  refine ⟨?_, ?_, ?_, ?_⟩
  · rw [runCloseAndSaveAllStorage, hne]
    simp only [Bool.false_eq_true, if_false, List.length_take]
    exact min_le_left _ _
  · rw [runCloseAndSaveAllStorage, hne]
    simp only [Bool.false_eq_true, if_false]
    exact List.take_append_drop _ _
  · rw [importClosedAndSaved, List.length_take]
    exact min_le_left _ _
  · rw [importClosedAndSaved]
    exact List.take_append_drop _ _

/-- Witness for C7 at concrete lists. -/
theorem c7_closedSaved_bounded_witness :
    (runCloseAndSaveAllStorage [⟨"https://a.example/", "A", 1⟩] []).length ≤ CLOSED_SAVED_MAX ∧
    runCloseAndSaveAllStorage [⟨"https://a.example/", "A", 1⟩] [] ++
        (([⟨"https://a.example/", "A", 1⟩] : List ClosedEntry).reverse ++ []).drop
          CLOSED_SAVED_MAX
      = ([⟨"https://a.example/", "A", 1⟩] : List ClosedEntry).reverse ++ [] ∧
    (importClosedAndSaved [⟨"https://b.example/", "B", 2⟩] []).length ≤ CLOSED_SAVED_MAX ∧
    importClosedAndSaved [⟨"https://b.example/", "B", 2⟩] [] ++
        (([⟨"https://b.example/", "B", 2⟩] : List ClosedEntry) ++ []).drop CLOSED_SAVED_MAX
      = ([⟨"https://b.example/", "B", 2⟩] : List ClosedEntry) ++ [] :=
  c7_closedSaved_bounded [⟨"https://a.example/", "A", 1⟩] []
    [⟨"https://b.example/", "B", 2⟩] [] (by simp)

/-! ## Claim C8 -/

/-- C8 counterexample: a tab URL with the `ftp` scheme — nonempty, and not of
scheme http, https or file — is nevertheless accepted by the restorability
check gating the placeholder strategy (`hasRestorableUrl` is `true`, so the
suspend loops do not skip such a tab). -/
theorem c8_counterexample_ftp :
    ¬("ftp://example.com" = "") ∧
    (parseUrl "ftp://example.com").map UrlParts.scheme = some "ftp" ∧
    ¬("ftp" ∈ (["http", "https", "file"] : List String)) ∧
    hasRestorableUrl "ftp://example.com" = true := by
  decide

/-- C8 amended: under the placeholder strategy a tab is rejected by the
restorability check exactly when its URL is empty after trimming whitespace
or is an `about:` URL (such as `about:blank`); URLs of any other scheme pass
the check. -/
theorem c8_placeholder_reject_iff (url : String) :
    hasRestorableUrl url = false ↔
      (jsTrim url = "" ∨ strStartsWith (jsTrim url) "about:" = true) := by
  have hblank : ∀ u : String, u = "about:blank" → strStartsWith u "about:" = true := by
    intro u hu
    rw [hu]
    decide
  have hdef : hasRestorableUrl url =
      (decide (0 < (jsTrim url).data.length) && !(jsTrim url == "about:blank")
        && !(strStartsWith (jsTrim url) "about:")) := rfl
  rw [hdef]
  by_cases h3 : strStartsWith (jsTrim url) "about:" = true
  · simp [h3]
  · have h3f : strStartsWith (jsTrim url) "about:" = false := by
      cases hb : strStartsWith (jsTrim url) "about:" with
      | false => rfl
      | true => exact absurd hb h3
    by_cases h2 : jsTrim url = "about:blank"
    · exact absurd (hblank _ h2) h3
    · by_cases h1 : (jsTrim url).data = []
      · have hu : jsTrim url = "" := String.ext (by rw [h1])
        simp [h1, hu, h3f]
      · have hlen : 0 < (jsTrim url).data.length := List.length_pos.mpr h1
        have hne : jsTrim url ≠ "" := by
          intro he
          apply h1
          rw [he]
        have hdec : decide (0 < (jsTrim url).data.length) = true := decide_eq_true hlen
        have h2b : (jsTrim url == "about:blank") = false := by simp [h2]
        rw [hdec, h2b, h3f]
        simp [hne]

/-! ## Claim C4 -/

/-- C4: the eligibility predicate returns `false` whenever the tab is active
without the `allowActive` override, or pinned, or audible, or incognito, or
its URL has a chrome:// or chrome-extension:// scheme, or its URL identifies
the extension's stub page under any installation identity (path ending in
suspended.html with a tabId parameter), regardless of elapsed idle time. -/
theorem c4_eligibility_excludes (extBase : String) (tab : Tab) (allowActive : Bool)
    (h : (tab.active = true ∧ allowActive = false) ∨ tab.pinned = true ∨ tab.audible = true
        ∨ tab.incognito = true
        ∨ strStartsWith (strToLower tab.url) "chrome://" = true
        ∨ strStartsWith (strToLower tab.url) "chrome-extension://" = true
        ∨ isPlaceholderTabUrl tab.url = true) :
    isTabEligibleForSuspend extBase tab allowActive = false := by
  simp only [isTabEligibleForSuspend]
  split_ifs with g1 g2 g3 g4 g5 g6 g7 <;> try rfl
  exfalso
  rcases h with ⟨h1, h2⟩ | hp | ha | hi | hc | hce | hpl
  · exact g2 (by simp [h1, h2])
  · exact g3 hp
  · exact g4 ha
  · exact g5 hi
  · exact g6 (by simp [hc])
  · exact g6 (by simp [hce])
  · exact g7 (by simp [hpl])

/-- Witness for C4: a pinned background tab is ineligible. -/
theorem c4_eligibility_excludes_witness :
    isTabEligibleForSuspend "chrome-extension://cur/"
      { id := 3, url := "https://a.example/", title := "A", active := false, pinned := true,
        audible := false, incognito := false } false = false :=
  c4_eligibility_excludes "chrome-extension://cur/"
    { id := 3, url := "https://a.example/", title := "A", active := false, pinned := true,
      audible := false, incognito := false } false (Or.inr (Or.inl rfl))

/-! ## Claim C1 -/

/-- C1: every placeholder suspension emits the durable write of the
`SuspendedTabRecord` (key `suspended_<tabId>`, holding the original url and
title) strictly before the navigation to the stub page, whichever way the
navigation turns out; consequently, if the process dies once the record is
written but before the navigation completes (the trace truncated after the
write, or after the triggered navigation), the restore lookup for that tab
still yields the original URL. -/
theorem c1_write_before_navigate (navOk : Bool) (extBase : String) (tabId : Nat)
    (url title today : String) (σ : Store) (hurl : url ≠ "") :
    (∃ stubUrl rest, (suspendPlaceholder true navOk extBase tabId url title).2 =
        Effect.write (restoreKey tabId) (.suspendedRec ⟨url, title, tabId⟩)
          :: Effect.navigate tabId stubUrl :: rest) ∧
    restoreLookup (applyEffects today σ
      ((suspendPlaceholder true navOk extBase tabId url title).2.take 1)) tabId = some url ∧
    restoreLookup (applyEffects today σ
      ((suspendPlaceholder true navOk extBase tabId url title).2.take 2)) tabId = some url := by
  cases navOk with
  | false =>
    refine ⟨⟨suspendedStubUrl extBase tabId url, [Effect.remove (restoreKey tabId)],
        by simp [suspendPlaceholder]⟩, ?_, ?_⟩ <;>
      simp [suspendPlaceholder, applyEffects, applyEffect, restoreLookup,
        storeGet_set_self, hurl]
  | true =>
    refine ⟨⟨suspendedStubUrl extBase tabId url, [Effect.incrToday],
        by simp [suspendPlaceholder]⟩, ?_, ?_⟩ <;>
      simp [suspendPlaceholder, applyEffects, applyEffect, restoreLookup,
        storeGet_set_self, hurl]

/-- Witness for C1: the spec scenario, tabId 9, termination before the
navigation completed (`navOk = false`). -/
theorem c1_write_before_navigate_witness :
    (∃ stubUrl rest,
        (suspendPlaceholder true false "chrome-extension://cur/" 9 "https://example.com" "Ex").2 =
        Effect.write (restoreKey 9)
            (.suspendedRec ⟨"https://example.com", "Ex", 9⟩)
          :: Effect.navigate 9 stubUrl :: rest) ∧
    restoreLookup (applyEffects "2026-02-03" []
      ((suspendPlaceholder true false "chrome-extension://cur/" 9
        "https://example.com" "Ex").2.take 1)) 9 = some "https://example.com" ∧
    restoreLookup (applyEffects "2026-02-03" []
      ((suspendPlaceholder true false "chrome-extension://cur/" 9
        "https://example.com" "Ex").2.take 2)) 9 = some "https://example.com" :=
  c1_write_before_navigate false "chrome-extension://cur/" 9 "https://example.com" "Ex"
    "2026-02-03" [] (by decide)

/-! ## Claim C2 -/

/-- C2: after a successful placeholder suspension of tab `tabId` with a
nonempty http/https url, both restore readers — the stored-record lookup of
`runRestoreAllSuspended` and the `getRestoreData` handler — yield exactly
that url. -/
theorem c2_restore_returns_url (extBase : String) (tabId : Nat) (url title today : String)
    (σ : Store)
    (hurl : strStartsWith url "http://" = true ∨ strStartsWith url "https://" = true) :
    (suspendPlaceholder true true extBase tabId url title).1 = true ∧
    restoreLookup (applyEffects today σ
      (suspendPlaceholder true true extBase tabId url title).2) tabId = some url ∧
    getRestoreData (applyEffects today σ
      (suspendPlaceholder true true extBase tabId url title).2) tabId
      = some ⟨url, title, tabId⟩ := by
  have hne : url ≠ "" := by
    rcases hurl with h | h <;>
      · intro he
        rw [he] at h
        exact absurd h (by decide)
  have hget : storeGet (applyEffects today σ
      (suspendPlaceholder true true extBase tabId url title).2) (restoreKey tabId)
      = some (.suspendedRec ⟨url, title, tabId⟩) := by
    simp only [suspendPlaceholder, Bool.not_true, Bool.false_eq_true, if_false, if_true,
      applyEffects, List.foldl_cons, List.foldl_nil, applyEffect, incrementSuspendedToday]
    rw [storeGet_set_ne _ _ _ _ (Ne.symm (restoreKey_ne_todayDate tabId)),
      storeGet_set_ne _ _ _ _ (Ne.symm (restoreKey_ne_today tabId)),
      storeGet_set_self]
  refine ⟨by simp [suspendPlaceholder], ?_, ?_⟩
  · simp [restoreLookup, hget, hne]
  · simp [getRestoreData, hget]

/-- Witness for C2: the spec scenario, tabId 5, url "https://example.com". -/
theorem c2_restore_returns_url_witness :
    (suspendPlaceholder true true "chrome-extension://cur/" 5
      "https://example.com" "Ex").1 = true ∧
    restoreLookup (applyEffects "2026-02-03" []
      (suspendPlaceholder true true "chrome-extension://cur/" 5
        "https://example.com" "Ex").2) 5 = some "https://example.com" ∧
    getRestoreData (applyEffects "2026-02-03" []
      (suspendPlaceholder true true "chrome-extension://cur/" 5
        "https://example.com" "Ex").2) 5 = some ⟨"https://example.com", "Ex", 5⟩ :=
  c2_restore_returns_url "chrome-extension://cur/" 5 "https://example.com" "Ex"
    "2026-02-03" [] (Or.inr (by decide))

/-! ## Claim C3 -/

/-- C3 counterexample: when a stale `SuspendedTabRecord` already sits under
the tab's key, a failed placeholder suspension does not leave durable state
equal to the state before it — the rollback deletes the key outright, losing
the pre-existing record. -/
theorem c3_counterexample_stale_record :
    applyEffects "2026-02-03"
        [("suspended_5", .suspendedRec ⟨"https://old.example/", "Old", 5⟩)]
        (suspendPlaceholder true false "chrome-extension://cur/" 5
          "https://new.example/" "New").2
      ≠ [("suspended_5", .suspendedRec ⟨"https://old.example/", "Old", 5⟩)] := by
  decide

/-- C3 amended: a placeholder suspension whose navigation fails reports
failure, leaves no `SuspendedTabRecord` under the tab's key, and does not
touch the daily counter; and whenever no record existed under that key
beforehand — the case in every first suspension of a tab — the durable state
after the failure equals the state before it. -/
theorem c3_failed_suspend_rollback (extBase : String) (tabId : Nat)
    (url title today : String) (σ : Store) :
    (suspendPlaceholder true false extBase tabId url title).1 = false ∧
    storeGet (applyEffects today σ
      (suspendPlaceholder true false extBase tabId url title).2) (restoreKey tabId) = none ∧
    storeGet (applyEffects today σ
      (suspendPlaceholder true false extBase tabId url title).2) "suspendedToday"
      = storeGet σ "suspendedToday" ∧
    storeGet (applyEffects today σ
      (suspendPlaceholder true false extBase tabId url title).2) "suspendedTodayDate"
      = storeGet σ "suspendedTodayDate" ∧
    (storeGet σ (restoreKey tabId) = none →
      applyEffects today σ (suspendPlaceholder true false extBase tabId url title).2 = σ) := by
  have happ : applyEffects today σ
      (suspendPlaceholder true false extBase tabId url title).2
      = storeRemove (storeSet σ (restoreKey tabId)
          (.suspendedRec ⟨url, title, tabId⟩)) (restoreKey tabId) := by
    simp [suspendPlaceholder, applyEffects, applyEffect]
  refine ⟨by simp [suspendPlaceholder], ?_, ?_, ?_, ?_⟩
  · rw [happ, storeGet_remove_self]
  · rw [happ, storeGet_remove_ne _ _ _ (restoreKey_ne_today tabId),
      storeGet_set_ne _ _ _ _ (restoreKey_ne_today tabId)]
  · rw [happ, storeGet_remove_ne _ _ _ (restoreKey_ne_todayDate tabId),
      storeGet_set_ne _ _ _ _ (restoreKey_ne_todayDate tabId)]
  · intro habs
    rw [happ, storeRemove_set_absent _ _ _ habs]

/-- Witness for C3 (amended) at an empty store, with the inner no-prior-record
hypothesis discharged. -/
theorem c3_failed_suspend_rollback_witness :
    (suspendPlaceholder true false "chrome-extension://cur/" 5
      "https://a.example/" "A").1 = false ∧
    storeGet (applyEffects "2026-02-03" []
      (suspendPlaceholder true false "chrome-extension://cur/" 5
        "https://a.example/" "A").2) (restoreKey 5) = none ∧
    applyEffects "2026-02-03" []
      (suspendPlaceholder true false "chrome-extension://cur/" 5
        "https://a.example/" "A").2 = [] := by
  have h := c3_failed_suspend_rollback "chrome-extension://cur/" 5
    "https://a.example/" "A" "2026-02-03" []
  exact ⟨h.1, h.2.1, h.2.2.2.2 rfl⟩

/-! ## Claim C6 -/

theorem dedupeByUrlAux_sublist (ts : List TabInfo) :
    ∀ seen : List String, List.Sublist (dedupeByUrlAux seen ts) ts := by
  induction ts with
  | nil => intro seen; exact List.Sublist.refl _
  | cons t ts ih =>
    intro seen
    by_cases hm : t.url ∈ seen
    · rw [dedupeByUrlAux, if_pos hm]
      exact (ih seen).cons t
    · rw [dedupeByUrlAux, if_neg hm]
      exact (ih (t.url :: seen)).cons₂ t

theorem dedupeByUrlAux_nodup (ts : List TabInfo) :
    ∀ seen : List String,
      ((dedupeByUrlAux seen ts).map (fun t => t.url)).Nodup ∧
      ∀ t ∈ dedupeByUrlAux seen ts, t.url ∉ seen := by
  induction ts with
  | nil => intro seen; simp [dedupeByUrlAux]
  | cons t ts ih =>
    intro seen
    by_cases hm : t.url ∈ seen
    · rw [dedupeByUrlAux, if_pos hm]
      exact ih seen
    · rw [dedupeByUrlAux, if_neg hm]
      obtain ⟨hnd, hout⟩ := ih (t.url :: seen)
      refine ⟨?_, ?_⟩
      · rw [List.map_cons, List.nodup_cons]
        refine ⟨?_, hnd⟩
        intro hmem
        obtain ⟨x, hx, hxu⟩ := List.mem_map.mp hmem
        exact hout x hx (by rw [hxu]; exact List.mem_cons_self _ _)
      · intro x hx
        rcases List.mem_cons.mp hx with rfl | hx2
        · exact hm
        · intro hs
          exact hout x hx2 (List.mem_cons_of_mem _ hs)

theorem appendMissing_nodup (now : Int) (ts : List TabInfo) :
    ∀ bucket : List BackupEntry, (bucket.map (fun e => e.url)).Nodup →
      ((appendMissing now bucket ts).map (fun e => e.url)).Nodup := by
  induction ts with
  | nil =>
    intro b h
    simpa [appendMissing] using h
  | cons t ts ih =>
    intro b h
    by_cases hm : t.url ∈ b.map (fun e => e.url)
    · rw [appendMissing, if_pos hm]
      exact ih b h
    · rw [appendMissing, if_neg hm]
      apply ih
      simp [backupEntryOf, List.nodup_append, h, hm]

theorem appendMissing_extends (now : Int) (ts : List TabInfo) :
    ∀ bucket : List BackupEntry,
      ∃ appended, appendMissing now bucket ts = bucket ++ appended ∧
        ∀ e ∈ appended, e.url ∉ bucket.map (fun x => x.url) := by
  induction ts with
  | nil =>
    intro b
    exact ⟨[], by simp [appendMissing], by simp⟩
  | cons t ts ih =>
    intro b
    by_cases hm : t.url ∈ b.map (fun x => x.url)
    · obtain ⟨l, hl, hp⟩ := ih b
      exact ⟨l, by rw [appendMissing, if_pos hm]; exact hl, hp⟩
    · obtain ⟨l, hl, hp⟩ := ih (b ++ [backupEntryOf now t])
      refine ⟨backupEntryOf now t :: l, ?_, ?_⟩
      · rw [appendMissing, if_neg hm, hl]
        simp
      · intro x hx
        rcases List.mem_cons.mp hx with rfl | hx2
        · simpa [backupEntryOf] using hm
        · intro hmem
          exact hp x hx2 (by simp [hmem])

theorem runBackupStorage_nodup (now : Int) (bucket : List BackupEntry)
    (tabs : List TabInfo) (h : (bucket.map (fun e => e.url)).Nodup) :
    ((runBackupStorage now bucket tabs).map (fun e => e.url)).Nodup := by
  unfold runBackupStorage
  by_cases he : (dedupeByUrl tabs).isEmpty = true
  · rw [if_pos he]
    exact h
  · rw [if_neg he]
    exact appendMissing_nodup now (dedupeByUrl tabs) bucket h

/-- C6: over any sequence of backup runs within the same day — the bucket
starting empty — the day's bucket never holds two entries with the same URL;
moreover every single run only appends entries whose URL is absent from the
bucket (and the input of each run is first deduplicated by URL, keeping a
duplicate-free subsequence of the input, first occurrence winning). -/
theorem c6_backup_bucket_no_duplicates (runs : List (Int × List TabInfo)) :
    ((runs.foldl (fun b r => runBackupStorage r.1 b r.2) []).map
        (fun e => e.url)).Nodup ∧
    (∀ (now : Int) (bucket : List BackupEntry) (tabs : List TabInfo),
      ∃ appended, runBackupStorage now bucket tabs = bucket ++ appended ∧
        ∀ e ∈ appended, e.url ∉ bucket.map (fun x => x.url)) ∧
    (∀ tabs : List TabInfo,
      ((dedupeByUrl tabs).map (fun t => t.url)).Nodup ∧ List.Sublist (dedupeByUrl tabs) tabs) := by
  refine ⟨?_, ?_, ?_⟩
  · have gen : ∀ (rs : List (Int × List TabInfo)) (b : List BackupEntry),
        (b.map (fun e => e.url)).Nodup →
        ((rs.foldl (fun b r => runBackupStorage r.1 b r.2) b).map (fun e => e.url)).Nodup := by
      intro rs
      induction rs with
      | nil =>
        intro b h
        simpa using h
      | cons r rs ih =>
        intro b h
        exact ih _ (runBackupStorage_nodup _ _ _ h)
    exact gen runs [] (by simp)
  · intro now bucket tabs
    unfold runBackupStorage
    by_cases he : (dedupeByUrl tabs).isEmpty = true
    · exact ⟨[], by rw [if_pos he]; simp, by simp⟩
    · rw [if_neg he]
      exact appendMissing_extends now (dedupeByUrl tabs) bucket
  · intro tabs
    exact ⟨(dedupeByUrlAux_nodup tabs []).1, dedupeByUrlAux_sublist tabs []⟩

/-! ## Claim C10 -/

/-- C10: in the `runRestoreAllSuspended` loop body, when the stub tab's
stored record is missing and the fallback `u` parameter does not start with
`http://` or `https://`, the tab is left unchanged, nothing is removed from
storage, and the tab is not counted as restored. -/
theorem c10_fallback_scheme_guard (σ : Store) (tab : Tab) (u : UrlParts) (tp f : String)
    (hparse : parseUrl tab.url = some u)
    (htid : getParam u.searchParams "tabId" = some tp)
    (hstore : storeGet σ ("suspended_" ++ jsIntRepr (jsParseInt tp)) = none)
    (hfall : getParam u.searchParams "u" = some f)
    (hf1 : strStartsWith f "http://" = false)
    (hf2 : strStartsWith f "https://" = false) :
    restoreTabStep σ tab = ⟨σ, tab, 0⟩ := by
  unfold restoreTabStep
  by_cases hg : (tab.url == "" || tab.id == 0 || !(isPlaceholderTabUrl tab.url)) = true
  · rw [if_pos hg]
  · rw [if_neg hg]
    by_cases htp : (tp == "") = true
    · simp only [hparse, htid, htp, if_true]
    · simp only [hparse, htid, htp, Bool.false_eq_true, if_false, hstore, hfall, hf1, hf2,
        Bool.or_self, Bool.and_false]

/-- Witness for C10: a stub URL carrying a `file://` fallback, with no stored
record. -/
theorem c10_fallback_scheme_guard_witness :
    restoreTabStep []
      { id := 4, url := "chrome-extension://oldid/suspended.html?tabId=5&u=file%3A%2F%2F%2Fetc%2Fpasswd",
        title := "stub", active := false, pinned := false, audible := false,
        incognito := false }
      = ⟨[],
         { id := 4, url := "chrome-extension://oldid/suspended.html?tabId=5&u=file%3A%2F%2F%2Fetc%2Fpasswd",
           title := "stub", active := false, pinned := false, audible := false,
           incognito := false }, 0⟩ :=
  c10_fallback_scheme_guard []
    { id := 4, url := "chrome-extension://oldid/suspended.html?tabId=5&u=file%3A%2F%2F%2Fetc%2Fpasswd",
      title := "stub", active := false, pinned := false, audible := false,
      incognito := false }
    { scheme := "chrome-extension", host := "oldid", pathname := "/suspended.html",
      searchParams := [("tabId", "5"), ("u", "file:///etc/passwd")] }
    "5" "file:///etc/passwd" (by decide) (by decide) rfl (by decide) (by decide) (by decide)

end TabHibernate
